import Mathlib

/-!
Shallow embedding of `cleantmp` (src/cleantmp/__main__.py), the recursive
traversal-and-classification engine `clean_temp_files` together with its
classification predicate `is_temp_file`, its configuration data
(`TEMP_FILES`, `FILES_PATTERNS`, `DIRS_TO_IGNORE`), its statistics record
and its error conditions.

Modelling conventions:
* A filesystem tree is an inductive `Entry`: a file carries the result of
  the `is_access` check (`os.access R_OK and W_OK`) and whether `os.remove`
  would succeed; a directory carries the result of its `is_access` check
  (`os.access R_OK and X_OK`) and its listing.
* The Python `stats` dictionary becomes the `Stats` structure; the engine
  threads it explicitly instead of mutating a module-level global.
* `raise CleanTmpException(msg)` becomes `Except.error (e, s)` where `e`
  identifies the raise site by its message and `s` is the statistics
  record at the moment of the raise.  Path strings only ever feed the
  exception messages and `print` calls, so they are not modelled.
* `fnmatch.fnmatch(name, pat)` on POSIX (where `os.path.normcase` is the
  identity) is a case-sensitive shell-glob match; it is embedded as a
  fuel-indexed matcher `globMatchFuel`, with fuel `|pat| + |name| + 1`,
  proved sufficient in `globMatchFuel_fuel_irrelevant`.
-/

/-- The six counters of the module-level `stats` dictionary. -/
structure Stats where
  examined_files : Nat
  examined_dirs : Nat
  deleted_files : Nat
  inaccessible_files : Nat
  inaccessible_dirs : Nat
  ignored_dirs : Nat
deriving DecidableEq

/-- The initial value of `stats`: every counter starts at zero. -/
def initStats : Stats :=
  { examined_files := 0, examined_dirs := 0, deleted_files := 0,
    inaccessible_files := 0, inaccessible_dirs := 0, ignored_dirs := 0 }

/-- Componentwise order on the statistics record. -/
def Stats.le (a b : Stats) : Prop :=
  a.examined_files ≤ b.examined_files ∧
  a.examined_dirs ≤ b.examined_dirs ∧
  a.deleted_files ≤ b.deleted_files ∧
  a.inaccessible_files ≤ b.inaccessible_files ∧
  a.inaccessible_dirs ≤ b.inaccessible_dirs ∧
  a.ignored_dirs ≤ b.ignored_dirs

/-- Python `TEMP_FILES`: exact-match junk filenames. -/
def TEMP_FILES : List String :=
  [".DS_Store", "Thumbs.db", "ehthumbs.db", "Desktop.ini"]

/-- Python `FILES_PATTERNS`: shell-glob patterns for junk filenames
(macOS metadata, backups, Vim swap files). -/
def FILES_PATTERNS : List String :=
  ["._*", "*~", ".*.sw?"]

/-- Python `DIRS_TO_IGNORE`: directory names never descended into. -/
def DIRS_TO_IGNORE : List String :=
  [".Spotlight-V100", ".fseventsd", ".Trash", ".Trashes",
   "$RECYCLE.BIN", "System Volume Information"]

/-- Body of a shell character class: a `-` between two characters denotes a
code-point range, anything else matches literally (as in the regex produced
by `fnmatch.translate`). -/
def classMatches : List Char → Char → Bool
  | [], _ => false
  | a :: '-' :: b :: rest, c =>
      (a.toNat ≤ c.toNat && c.toNat ≤ b.toNat) || classMatches rest c
  | a :: rest, c => (a == c) || classMatches rest c

/-- Scan for the closing `]` of a character class, returning the class body
and the remainder of the pattern; `none` when the class is unterminated. -/
def findClose : List Char → Option (List Char × List Char)
  | [] => none
  | c :: rest =>
      if c = ']' then some ([], rest)
      else
        match findClose rest with
        | some (body, r) => some (c :: body, r)
        | none => none

/-- Parse a character class after the opening `[`: an optional `!` negates,
and a `]` directly after `[` (or `[!`) is part of the body, as in
`fnmatch.translate`.  Returns negation flag, body, and the rest of the
pattern, or `none` when there is no closing `]` (then `[` is literal).
`parseClassBody` scans the part after the optional `!`: a `]` in first
position is literal (part of the body), otherwise the body runs to the
first `]`. -/
def parseClassBody (neg : Bool) (l : List Char) : Option (Bool × List Char × List Char) :=
  match l with
  | [] => none
  | c :: r2 =>
      if c = ']' then
        match findClose r2 with
        | some (body, rest) => some (neg, ']' :: body, rest)
        | none => none
      else
        match findClose (c :: r2) with
        | some (body, rest) => some (neg, body, rest)
        | none => none

def parseClass (ps : List Char) : Option (Bool × List Char × List Char) :=
  match ps with
  | [] => none
  | c :: r => if c = '!' then parseClassBody true r else parseClassBody false (c :: r)

/-- Fuel-indexed anchored shell-glob matcher: `*` matches any run of
characters, `?` any single character, `[...]` a character class, anything
else itself.  Every recursive call strictly decreases
`pattern.length + s.length`, so fuel above that bound never runs out
(`globMatchFuel_fuel_irrelevant`). -/
def globMatchFuel : Nat → List Char → List Char → Bool
  | 0, _, _ => false
  | _ + 1, [], s => s.isEmpty
  | fuel + 1, p :: ps, s =>
      if p = '*' then
        globMatchFuel fuel ps s ||
          (match s with
           | [] => false
           | _ :: s2 => globMatchFuel fuel (p :: ps) s2)
      else if p = '?' then
        (match s with
         | [] => false
         | _ :: s2 => globMatchFuel fuel ps s2)
      else if p = '[' then
        (match parseClass ps with
         | some (neg, body, rest) =>
            (match s with
             | [] => false
             | c :: s2 => (classMatches body c != neg) && globMatchFuel fuel rest s2)
         | none =>
            (match s with
             | [] => false
             | c :: s2 => (p == c) && globMatchFuel fuel ps s2))
      else
        (match s with
         | [] => false
         | c :: s2 => (p == c) && globMatchFuel fuel ps s2)

/-- Python `fnmatch.fnmatch(name, pat)` with POSIX `normcase` (the identity):
case-sensitive anchored glob match of the whole name. -/
def fnmatch (name pat : String) : Bool :=
  globMatchFuel (pat.toList.length + name.toList.length + 1) pat.toList name.toList

/-- Python `is_temp_file(filename)`: exact membership in `TEMP_FILES`, otherwise
first matching pattern of `FILES_PATTERNS`, otherwise not junk. -/
def is_temp_file (filename : String) : Bool :=
  if TEMP_FILES.contains filename then true
  else if FILES_PATTERNS.any (fun pattern => fnmatch filename pattern) then true
  else false

/-- A directory entry as the walk observes it: a file carries its
`is_access` result (readable and writable) and whether `os.remove` would
succeed; a directory carries its `is_access` result (readable and
enterable) and its `os.listdir` listing, in enumeration order. -/
inductive Entry : Type where
  | file (name : String) (accessible : Bool) (removeOk : Bool) : Entry
  | dir (name : String) (accessible : Bool) (children : List Entry) : Entry

/-- The three raise sites of `CleanTmpException` inside `clean_temp_files`,
identified by their messages. -/
inductive CleanTmpError : Type where
  /-- "No se ha podido obtener una ruta válida": path missing or not a directory. -/
  | invalidPath : CleanTmpError
  /-- "No se puede acceder a la carpeta ...": directory not accessible. -/
  | notAccessible : CleanTmpError
  /-- "La carpeta está vacía: ...": empty listing on a non-recursive call. -/
  | emptyDir : CleanTmpError
deriving DecidableEq

mutual
/-- One iteration of the `for file in file_list` loop of
`clean_temp_files`, on one directory entry.  Returns the updated statistics
and the surviving entry (`none` when the file was deleted).  The recursive
sub-call `clean_temp_files(filepath, recursive)` is inlined in the
directory branch: its `os.path.exists`/`os.path.isdir` guard holds by
construction (the entry was just enumerated as a directory), and the rest
of its body is transcribed unchanged, including the branches on
`recursive` that are dead because the sub-call only happens when
`recursive` is set. -/
def processEntry (e : Entry) (recursive : Bool) (s : Stats) :
    Except (CleanTmpError × Stats) (Stats × Option Entry) :=
  match e with
  | .dir name acc children =>
    if recursive then
      if DIRS_TO_IGNORE.contains name then
        .ok ({ s with ignored_dirs := s.ignored_dirs + 1 }, some (.dir name acc children))
      else
        let s1 := { s with examined_dirs := s.examined_dirs + 1 }
        if !acc then
          if recursive then
            .ok ({ s1 with inaccessible_dirs := s1.inaccessible_dirs + 1 },
                 some (.dir name acc children))
          else
            .error (.notAccessible, s1)
        else if children.length == 0 && !recursive then
          .error (.emptyDir, s1)
        else
          match processEntries children recursive s1 with
          | .error err => .error err
          | .ok (s2, children2) => .ok (s2, some (.dir name acc children2))
    else
      .ok (s, some (.dir name acc children))
  | .file name acc removeOk =>
    let s1 := { s with examined_files := s.examined_files + 1 }
    if is_temp_file name then
      if !acc then
        .ok ({ s1 with inaccessible_files := s1.inaccessible_files + 1 },
             some (.file name acc removeOk))
      else if removeOk then
        .ok ({ s1 with deleted_files := s1.deleted_files + 1 }, none)
      else
        .ok ({ s1 with inaccessible_files := s1.inaccessible_files + 1 },
             some (.file name acc removeOk))
    else
      .ok (s1, some (.file name acc removeOk))

/-- The `for file in file_list` loop of `clean_temp_files` over a listing.
An exception raised by a sub-call propagates and aborts the loop; the
surviving entries are returned in order. -/
def processEntries (es : List Entry) (recursive : Bool) (s : Stats) :
    Except (CleanTmpError × Stats) (Stats × List Entry) :=
  match es with
  | [] => .ok (s, [])
  | e :: rest =>
    match processEntry e recursive s with
    | .error err => .error err
    | .ok (s1, kept) =>
      match processEntries rest recursive s1 with
      | .error err => .error err
      | .ok (s2, rest2) =>
        .ok (s2, match kept with
                 | none => rest2
                 | some e2 => e2 :: rest2)
end

/-- Python `clean_temp_files(path, recursive)` called on a path resolving to
`root` (`none` when the path does not exist; a `.file` when it exists but
is not a directory), with statistics `s`.  On normal return it yields the
final statistics and the directory after deletions; on a raise it yields
the error and the statistics at the moment of the raise. -/
def clean_temp_files (root : Option Entry) (recursive : Bool) (s : Stats) :
    Except (CleanTmpError × Stats) (Stats × Entry) :=
  match root with
  | none => .error (.invalidPath, s)
  | some (.file _ _ _) => .error (.invalidPath, s)
  | some (.dir name acc children) =>
    let s1 := { s with examined_dirs := s.examined_dirs + 1 }
    if !acc then
      if recursive then
        .ok ({ s1 with inaccessible_dirs := s1.inaccessible_dirs + 1 },
             .dir name acc children)
      else
        .error (.notAccessible, s1)
    else if children.length == 0 && !recursive then
      .error (.emptyDir, s1)
    else
      match processEntries children recursive s1 with
      | .error err => .error err
      | .ok (s2, children2) => .ok (s2, .dir name acc children2)

/-- The statistics record visible after a call: on normal return the final
statistics, on a raise the statistics at the moment of the raise (the
Python `stats` global keeps all mutations made before the exception). -/
def outStats {α : Type} : Except (CleanTmpError × Stats) (Stats × α) → Stats
  | .error (_, s2) => s2
  | .ok (s2, _) => s2

/-! ## Library lemmas about the glob matcher -/

theorem findClose_length : ∀ {l body rest : List Char},
    findClose l = some (body, rest) → rest.length < l.length := by
  intro l
  induction l with
  | nil => intro body rest h; simp [findClose] at h
  | cons c tl ih =>
    intro body rest h
    simp only [findClose] at h
    by_cases hc : c = ']'
    · rw [if_pos hc] at h
      simp only [Option.some.injEq, Prod.mk.injEq] at h
      obtain ⟨-, rfl⟩ := h
      simp
    · rw [if_neg hc] at h
      cases hfc : findClose tl with
      | none => rw [hfc] at h; simp at h
      | some pr =>
        obtain ⟨b2, r2⟩ := pr
        rw [hfc] at h
        simp only [Option.some.injEq, Prod.mk.injEq] at h
        obtain ⟨-, rfl⟩ := h
        have := ih hfc
        simp
        omega

theorem parseClassBody_length : ∀ {neg n2 : Bool} {l body rest : List Char},
    parseClassBody neg l = some (n2, body, rest) → rest.length < l.length := by
  intro neg n2 l body rest h
  match l with
  | [] => simp [parseClassBody] at h
  | c :: r2 =>
    simp only [parseClassBody] at h
    by_cases hc : c = ']'
    · rw [if_pos hc] at h
      cases hfc : findClose r2 with
      | none => rw [hfc] at h; simp at h
      | some pr =>
        obtain ⟨b2, rst⟩ := pr
        rw [hfc] at h
        simp only [Option.some.injEq, Prod.mk.injEq] at h
        obtain ⟨-, -, rfl⟩ := h
        have := findClose_length hfc
        simp
        omega
    · rw [if_neg hc] at h
      cases hfc : findClose (c :: r2) with
      | none => rw [hfc] at h; simp at h
      | some pr =>
        obtain ⟨b2, rst⟩ := pr
        rw [hfc] at h
        simp only [Option.some.injEq, Prod.mk.injEq] at h
        obtain ⟨-, -, rfl⟩ := h
        exact findClose_length hfc

theorem parseClass_length : ∀ {ps : List Char} {neg : Bool} {body rest : List Char},
    parseClass ps = some (neg, body, rest) → rest.length < ps.length := by
  intro ps neg body rest h
  match ps with
  | [] => simp [parseClass] at h
  | c :: r =>
    simp only [parseClass] at h
    by_cases hc : c = '!'
    · rw [if_pos hc] at h
      have := parseClassBody_length h
      simp
      omega
    · rw [if_neg hc] at h
      exact parseClassBody_length h

/-- Any fuel strictly above `p.length + s.length` yields the same result:
every recursive call of `globMatchFuel` strictly decreases that sum, so the
fuel chosen in `fnmatch` never runs out and the matcher is a genuine total
glob matcher. -/
theorem globMatchFuel_fuel_irrelevant_aux : ∀ (n f1 f2 : Nat) (p s : List Char),
    p.length + s.length ≤ n → p.length + s.length < f1 → p.length + s.length < f2 →
    globMatchFuel f1 p s = globMatchFuel f2 p s := by
  intro n
  induction n with
  | zero =>
    intro f1 f2 p s hn h1 h2
    have hp : p = [] := by cases p with | nil => rfl | cons a b => simp at hn
    have hs : s = [] := by cases s with | nil => rfl | cons a b => simp at hn
    subst hp; subst hs
    simp only [List.length_nil] at h1 h2
    cases f1 with
    | zero => omega
    | succ a =>
      cases f2 with
      | zero => omega
      | succ b => simp [globMatchFuel]
  | succ n ih =>
    intro f1 f2 p s hn h1 h2
    cases f1 with
    | zero => omega
    | succ a =>
      cases f2 with
      | zero => omega
      | succ b =>
        match p with
        | [] => simp [globMatchFuel]
        | c :: ps =>
          simp only [List.length_cons] at hn h1 h2
          simp only [globMatchFuel]
          by_cases hstar : c = '*'
          · rw [if_pos hstar, if_pos hstar]
            have e1 : globMatchFuel a ps s = globMatchFuel b ps s :=
              ih a b ps s (by omega) (by omega) (by omega)
            rw [e1]
            cases s with
            | nil => rfl
            | cons c2 s2 =>
              simp only [List.length_cons] at hn h1 h2
              have e2 : globMatchFuel a (c :: ps) s2 = globMatchFuel b (c :: ps) s2 :=
                ih a b (c :: ps) s2 (by simp; omega) (by simp; omega) (by simp; omega)
              show (globMatchFuel b ps (c2 :: s2) || globMatchFuel a (c :: ps) s2) =
                (globMatchFuel b ps (c2 :: s2) || globMatchFuel b (c :: ps) s2)
              rw [e2]
          · rw [if_neg hstar, if_neg hstar]
            by_cases hq : c = '?'
            · rw [if_pos hq, if_pos hq]
              cases s with
              | nil => rfl
              | cons c2 s2 =>
                simp only [List.length_cons] at hn h1 h2
                show globMatchFuel a ps s2 = globMatchFuel b ps s2
                exact ih a b ps s2 (by omega) (by omega) (by omega)
            · rw [if_neg hq, if_neg hq]
              by_cases hbr : c = '['
              · rw [if_pos hbr, if_pos hbr]
                cases hpc : parseClass ps with
                | some t =>
                  obtain ⟨neg, body, rest⟩ := t
                  have hrest := parseClass_length hpc
                  cases s with
                  | nil => rfl
                  | cons c2 s2 =>
                    simp only [List.length_cons] at hn h1 h2
                    have e2 : globMatchFuel a rest s2 = globMatchFuel b rest s2 :=
                      ih a b rest s2 (by omega) (by omega) (by omega)
                    show (classMatches body c2 != neg && globMatchFuel a rest s2) =
                      (classMatches body c2 != neg && globMatchFuel b rest s2)
                    rw [e2]
                | none =>
                  cases s with
                  | nil => rfl
                  | cons c2 s2 =>
                    simp only [List.length_cons] at hn h1 h2
                    have e2 : globMatchFuel a ps s2 = globMatchFuel b ps s2 :=
                      ih a b ps s2 (by omega) (by omega) (by omega)
                    show (c == c2 && globMatchFuel a ps s2) = (c == c2 && globMatchFuel b ps s2)
                    rw [e2]
              · rw [if_neg hbr, if_neg hbr]
                cases s with
                | nil => rfl
                | cons c2 s2 =>
                  simp only [List.length_cons] at hn h1 h2
                  have e2 : globMatchFuel a ps s2 = globMatchFuel b ps s2 :=
                    ih a b ps s2 (by omega) (by omega) (by omega)
                  show (c == c2 && globMatchFuel a ps s2) = (c == c2 && globMatchFuel b ps s2)
                  rw [e2]

theorem globMatchFuel_fuel_irrelevant (f1 f2 : Nat) (p s : List Char)
    (h1 : p.length + s.length < f1) (h2 : p.length + s.length < f2) :
    globMatchFuel f1 p s = globMatchFuel f2 p s :=
  globMatchFuel_fuel_irrelevant_aux (p.length + s.length) f1 f2 p s (Nat.le_refl _) h1 h2

example : is_temp_file ".DS_Store" = true := by decide
example : is_temp_file "report.txt~" = true := by decide
example : is_temp_file "notes.txt" = false := by decide
example : is_temp_file "._stuff" = true := by decide
example : is_temp_file ".foo.swp" = true := by decide
example : is_temp_file ".ds_store" = false := by decide

/-! ## Structural lemmas about the traversal engine -/

theorem Stats.le_refl (a : Stats) : Stats.le a a := by
  simp [Stats.le]

theorem Stats.le_trans {a b c : Stats} (h1 : Stats.le a b) (h2 : Stats.le b c) :
    Stats.le a c := by
  simp only [Stats.le] at h1 h2 ⊢
  omega

/-- Entries are never fatal: every loop iteration returns normally (the
fatal branches of the inlined sub-call are guarded by `recursive`, which is
set whenever the sub-call happens), and the statistics only grow. -/
theorem processEntry_ok_mono : ∀ (e : Entry) (r : Bool) (s : Stats),
    ∃ s2 k, processEntry e r s = Except.ok (s2, k) ∧ Stats.le s s2 := by
  intro e
  refine @Entry.rec
    (fun e => ∀ (r : Bool) (s : Stats),
      ∃ s2 k, processEntry e r s = Except.ok (s2, k) ∧ Stats.le s s2)
    (fun es => ∀ (r : Bool) (s : Stats),
      ∃ s2 out, processEntries es r s = Except.ok (s2, out) ∧ Stats.le s s2)
    ?_ ?_ ?_ ?_ e
  · intro n a rok r s
    simp only [processEntry]
    by_cases ht : is_temp_file n
    · rw [if_pos ht]
      cases a with
      | false => exact ⟨_, _, rfl, by simp [Stats.le]⟩
      | true =>
        cases rok with
        | true => exact ⟨_, _, rfl, by simp [Stats.le]⟩
        | false => exact ⟨_, _, rfl, by simp [Stats.le]⟩
    · rw [if_neg ht]
      exact ⟨_, _, rfl, by simp [Stats.le]⟩
  · intro n a cs ih r s
    cases r with
    | false => exact ⟨s, some (.dir n a cs), rfl, Stats.le_refl s⟩
    | true =>
      by_cases hig : n ∈ DIRS_TO_IGNORE
      · exact ⟨{ s with ignored_dirs := s.ignored_dirs + 1 }, some (.dir n a cs),
          by simp [processEntry, hig], by simp [Stats.le]⟩
      · cases a with
        | false =>
          exact ⟨{ s with examined_dirs := s.examined_dirs + 1,
                          inaccessible_dirs := s.inaccessible_dirs + 1 },
            some (.dir n false cs), by simp [processEntry, hig], by simp [Stats.le]⟩
        | true =>
          obtain ⟨s2, out, heq, hle⟩ := ih true { s with examined_dirs := s.examined_dirs + 1 }
          refine ⟨s2, some (.dir n true out), ?_, ?_⟩
          · simp [processEntry, hig, heq]
          · exact Stats.le_trans (by simp [Stats.le]) hle
  · intro r s
    exact ⟨s, [], by simp [processEntries], Stats.le_refl s⟩
  · intro e rest ihe ihrest r s
    obtain ⟨s1, k, he, hle1⟩ := ihe r s
    obtain ⟨s2, out, hr, hle2⟩ := ihrest r s1
    refine ⟨s2, (match k with | none => out | some e2 => e2 :: out),
      ?_, Stats.le_trans hle1 hle2⟩
    simp only [processEntries, he, hr]
    cases k with
    | none => rfl
    | some e2 => rfl

/-- The entry loop over a whole listing is never fatal and only grows the
statistics. -/
theorem processEntries_ok_mono : ∀ (es : List Entry) (r : Bool) (s : Stats),
    ∃ s2 out, processEntries es r s = Except.ok (s2, out) ∧ Stats.le s s2 := by
  intro es
  induction es with
  | nil => intro r s; exact ⟨s, [], by simp [processEntries], Stats.le_refl s⟩
  | cons e rest ih =>
    intro r s
    obtain ⟨s1, k, he, hle1⟩ := processEntry_ok_mono e r s
    obtain ⟨s2, out, hr, hle2⟩ := ih r s1
    refine ⟨s2, (match k with | none => out | some e2 => e2 :: out),
      ?_, Stats.le_trans hle1 hle2⟩
    simp only [processEntries, he, hr]
    cases k with
    | none => rfl
    | some e2 => rfl

/-- Processing a concatenation of listings processes the first part, then
the second from the statistics the first produced. -/
theorem processEntries_append : ∀ (es1 es2 : List Entry) (r : Bool) (s : Stats),
    processEntries (es1 ++ es2) r s =
      match processEntries es1 r s with
      | .error err => .error err
      | .ok (s1, out1) =>
        match processEntries es2 r s1 with
        | .error err => .error err
        | .ok (s2, out2) => .ok (s2, out1 ++ out2) := by
  intro es1
  induction es1 with
  | nil =>
    intro es2 r s
    simp only [List.nil_append, processEntries]
    obtain ⟨s2, out, heq, -⟩ := processEntries_ok_mono es2 r s
    rw [heq]
  | cons e rest ih =>
    intro es2 r s
    obtain ⟨s1, k, he, -⟩ := processEntry_ok_mono e r s
    obtain ⟨sr, outr, hrr, -⟩ := processEntries_ok_mono rest r s1
    obtain ⟨se, oute, hee, -⟩ := processEntries_ok_mono es2 r sr
    have hl := ih es2 r s1
    simp only [hrr, hee] at hl
    simp only [List.cons_append, processEntries, List.append_eq, he, hl, hrr, hee]
    cases k with
    | none => rfl
    | some e2 => simp

/-- A full call only ever grows the statistics, whether it returns normally
or raises. -/
theorem clean_temp_files_mono (root : Option Entry) (r : Bool) (s : Stats) :
    Stats.le s (outStats (clean_temp_files root r s)) := by
  match root with
  | none => exact Stats.le_refl s
  | some (.file n a rok) => exact Stats.le_refl s
  | some (.dir n a cs) =>
    cases a with
    | false =>
      cases r with
      | true => simp [clean_temp_files, outStats, Stats.le]
      | false => simp [clean_temp_files, outStats, Stats.le]
    | true =>
      by_cases hemp : (cs.length == 0 && !r) = true
      · simp [clean_temp_files, hemp, outStats, Stats.le]
      · obtain ⟨s2, out, heq, hle⟩ :=
          processEntries_ok_mono cs r { s with examined_dirs := s.examined_dirs + 1 }
        have hc : clean_temp_files (some (.dir n true cs)) r s = .ok (s2, .dir n true out) := by
          simp [clean_temp_files, hemp, heq]
        rw [hc]
        exact Stats.le_trans (by simp [Stats.le]) hle

theorem processEntry_mono (e : Entry) (r : Bool) (s : Stats) :
    Stats.le s (outStats (processEntry e r s)) := by
  obtain ⟨s2, k, heq, hle⟩ := processEntry_ok_mono e r s
  rw [heq]
  exact hle

theorem processEntries_mono (es : List Entry) (r : Bool) (s : Stats) :
    Stats.le s (outStats (processEntries es r s)) := by
  obtain ⟨s2, out, heq, hle⟩ := processEntries_ok_mono es r s
  rw [heq]
  exact hle

/-! ## Claim theorems -/

/-- Claim C5: for every path that does not exist or is not a directory,
`clean_temp_files` raises the invalid-path `CleanTmpException` for both
values of the recursive flag, with the statistics untouched — the
existence-and-directory check precedes every counter update.  (In a
recursive sub-call the checked entry was just enumerated as a directory,
so the check holds there by construction.) -/
theorem c5_invalid_path_always_fatal (r : Bool) (s : Stats) (n : String) (a rok : Bool) :
    clean_temp_files none r s = .error (.invalidPath, s) ∧
    clean_temp_files (some (.file n a rok)) r s = .error (.invalidPath, s) :=
  ⟨rfl, rfl⟩

theorem c5_witness :
    clean_temp_files none false initStats = .error (.invalidPath, initStats) ∧
    clean_temp_files (some (.file "x.txt" true true)) false initStats =
      .error (.invalidPath, initStats) :=
  c5_invalid_path_always_fatal false initStats "x.txt" true true

/-- Claim C8: in a non-recursive call, a directory entry is skipped
entirely: no recursion, no counter change, no error, and the subtree is
returned untouched. -/
theorem c8_non_recursive_skips_directories (n : String) (acc : Bool) (cs : List Entry)
    (s : Stats) :
    processEntry (.dir n acc cs) false s = .ok (s, some (.dir n acc cs)) :=
  rfl

theorem c8_witness :
    processEntry (.dir ".Trash" false [.file ".DS_Store" true true]) false initStats =
      .ok (initStats, some (.dir ".Trash" false [.file ".DS_Store" true true])) :=
  c8_non_recursive_skips_directories ".Trash" false [.file ".DS_Store" true true] initStats

/-- Claim C4: a non-recursive call on an existing, accessible, empty
directory raises the empty-directory `CleanTmpException`; with the
recursive flag set, the same directory — also when visited as a descent
step — produces no error, deletes nothing, and changes only the
examined-directories counter. -/
theorem c4_empty_dir_fatal_only_non_recursive (n : String) (s : Stats)
    (hn : n ∉ DIRS_TO_IGNORE) :
    clean_temp_files (some (.dir n true [])) false s =
      .error (.emptyDir, { s with examined_dirs := s.examined_dirs + 1 }) ∧
    clean_temp_files (some (.dir n true [])) true s =
      .ok ({ s with examined_dirs := s.examined_dirs + 1 }, .dir n true []) ∧
    processEntry (.dir n true []) true s =
      .ok ({ s with examined_dirs := s.examined_dirs + 1 }, some (.dir n true [])) := by
  refine ⟨rfl, rfl, ?_⟩
  simp [processEntry, hn, processEntries]

theorem c4_witness :
    ("photos" ∉ DIRS_TO_IGNORE) ∧
    (clean_temp_files (some (.dir "photos" true [])) false initStats =
      .error (.emptyDir, { initStats with examined_dirs := 1 }) ∧
    clean_temp_files (some (.dir "photos" true [])) true initStats =
      .ok ({ initStats with examined_dirs := 1 }, .dir "photos" true []) ∧
    processEntry (.dir "photos" true []) true initStats =
      .ok ({ initStats with examined_dirs := 1 }, some (.dir "photos" true []))) :=
  ⟨by decide, c4_empty_dir_fatal_only_non_recursive "photos" initStats (by decide)⟩

/-- Claim C6: during a recursive walk, a directory whose name is in
`DIRS_TO_IGNORE` bumps the ignored-directories counter by 1 and is skipped
without being entered: no other counter moves and its entire subtree is
returned untouched, whatever junk it contains. -/
theorem c6_ignored_directory_skipped (n : String) (acc : Bool) (cs : List Entry) (s : Stats)
    (h : n ∈ DIRS_TO_IGNORE) :
    DIRS_TO_IGNORE = [".Spotlight-V100", ".fseventsd", ".Trash", ".Trashes",
      "$RECYCLE.BIN", "System Volume Information"] ∧
    processEntry (.dir n acc cs) true s =
      .ok ({ s with ignored_dirs := s.ignored_dirs + 1 }, some (.dir n acc cs)) := by
  refine ⟨rfl, ?_⟩
  simp [processEntry, h]

theorem c6_witness :
    (".Trash" ∈ DIRS_TO_IGNORE) ∧
    (DIRS_TO_IGNORE = [".Spotlight-V100", ".fseventsd", ".Trash", ".Trashes",
      "$RECYCLE.BIN", "System Volume Information"] ∧
    processEntry (.dir ".Trash" true [.file ".DS_Store" true true]) true initStats =
      .ok ({ initStats with ignored_dirs := 1 },
           some (.dir ".Trash" true [.file ".DS_Store" true true]))) :=
  ⟨by decide,
   c6_ignored_directory_skipped ".Trash" true [.file ".DS_Store" true true] initStats
     (by decide)⟩

/-- Claim C1, counterexample: a top-level call with the recursive flag set,
on an existing directory that lacks read or execute permission, does NOT
raise — it records the directory as inaccessible and returns normally
without listing it, so "fails if and only if it is the top-level entry
point" is false: fatality is decided by the `recursive` flag, not by being
the entry point. -/
theorem c1_counterexample_top_level_recursive_call_does_not_fail :
    clean_temp_files (some (.dir "locked" false [.file ".DS_Store" true true])) true initStats =
      .ok ({ initStats with examined_dirs := 1, inaccessible_dirs := 1 },
           .dir "locked" false [.file ".DS_Store" true true]) :=
  rfl

/-- Claim C1, amended: a call on an existing but inaccessible directory
raises the not-accessible `CleanTmpException` if and only if the recursive
flag is false; whenever the flag is set — in particular during every
recursive descent step, which always runs with the flag set — the call
bumps examined and inaccessible directories by 1 and returns to its caller
without failing and without listing the directory's contents (the subtree
comes back untouched). -/
theorem c1_inaccessible_dir_fatal_iff_flag_unset (n : String) (cs : List Entry)
    (r : Bool) (s : Stats) :
    (r = false → clean_temp_files (some (.dir n false cs)) r s =
        .error (.notAccessible, { s with examined_dirs := s.examined_dirs + 1 })) ∧
    (r = true → clean_temp_files (some (.dir n false cs)) r s =
        .ok ({ s with examined_dirs := s.examined_dirs + 1,
                      inaccessible_dirs := s.inaccessible_dirs + 1 },
             .dir n false cs)) ∧
    (n ∉ DIRS_TO_IGNORE → processEntry (.dir n false cs) true s =
        .ok ({ s with examined_dirs := s.examined_dirs + 1,
                      inaccessible_dirs := s.inaccessible_dirs + 1 },
             some (.dir n false cs))) := by
  refine ⟨?_, ?_, ?_⟩
  · rintro rfl; rfl
  · rintro rfl; rfl
  · intro hn; simp [processEntry, hn]

theorem c1_witness :
    (clean_temp_files (some (.dir "locked" false [])) false initStats =
      .error (.notAccessible, { initStats with examined_dirs := 1 })) ∧
    (clean_temp_files (some (.dir "locked" false [])) true initStats =
      .ok ({ initStats with examined_dirs := 1, inaccessible_dirs := 1 },
           .dir "locked" false [])) ∧
    (processEntry (.dir "locked" false []) true initStats =
      .ok ({ initStats with examined_dirs := 1, inaccessible_dirs := 1 },
           some (.dir "locked" false []))) :=
  ⟨(c1_inaccessible_dir_fatal_iff_flag_unset "locked" [] false initStats).1 rfl,
   (c1_inaccessible_dir_fatal_iff_flag_unset "locked" [] true initStats).2.1 rfl,
   (c1_inaccessible_dir_fatal_iff_flag_unset "locked" [] true initStats).2.2 (by decide)⟩

/-- Claim C7: an inaccessible (not readable-and-writable) deletion
candidate bumps examined and inaccessible files by 1 with no deletion
attempt; an accessible candidate whose removal fails bumps the same
counters; neither is fatal, and a non-recursive call on a directory
holding one unwritable junk file ends normally with 1 inaccessible file
and 0 deleted files. -/
theorem c7_file_failures_recorded_never_fatal (n dn : String) (rok r : Bool) (s : Stats)
    (hjunk : is_temp_file n = true) :
    processEntry (.file n false rok) r s =
      .ok ({ s with examined_files := s.examined_files + 1,
                    inaccessible_files := s.inaccessible_files + 1 },
           some (.file n false rok)) ∧
    processEntry (.file n true false) r s =
      .ok ({ s with examined_files := s.examined_files + 1,
                    inaccessible_files := s.inaccessible_files + 1 },
           some (.file n true false)) ∧
    clean_temp_files (some (.dir dn true [.file n false rok])) false initStats =
      .ok ({ initStats with examined_dirs := 1, examined_files := 1,
                            inaccessible_files := 1 },
           .dir dn true [.file n false rok]) := by
  refine ⟨?_, ?_, ?_⟩
  · simp [processEntry, hjunk]
  · simp [processEntry, hjunk]
  · simp [clean_temp_files, processEntries, processEntry, hjunk, initStats]

theorem c7_witness :
    is_temp_file ".DS_Store" = true ∧
    (processEntry (.file ".DS_Store" false true) false initStats =
      .ok ({ initStats with examined_files := 1, inaccessible_files := 1 },
           some (.file ".DS_Store" false true)) ∧
    processEntry (.file ".DS_Store" true false) false initStats =
      .ok ({ initStats with examined_files := 1, inaccessible_files := 1 },
           some (.file ".DS_Store" true false)) ∧
    clean_temp_files (some (.dir "d" true [.file ".DS_Store" false true])) false initStats =
      .ok ({ initStats with examined_dirs := 1, examined_files := 1,
                            inaccessible_files := 1 },
           .dir "d" true [.file ".DS_Store" false true])) :=
  ⟨by decide,
   c7_file_failures_recorded_never_fatal ".DS_Store" "d" true false initStats (by decide)⟩

/-- Claim C9: all six counters start at zero, and the traversal only ever
increments them: no step of any call, at any level and in either mode,
decreases any counter — the statistics grow monotonically from the input
record, for the whole call, for each loop iteration, and for each listing,
on the normal and on the raising path alike. -/
theorem c9_counters_zero_initialised_and_monotone :
    (initStats.examined_files = 0 ∧ initStats.examined_dirs = 0 ∧
     initStats.deleted_files = 0 ∧ initStats.inaccessible_files = 0 ∧
     initStats.inaccessible_dirs = 0 ∧ initStats.ignored_dirs = 0) ∧
    (∀ (root : Option Entry) (r : Bool) (s : Stats),
      Stats.le s (outStats (clean_temp_files root r s))) ∧
    (∀ (e : Entry) (r : Bool) (s : Stats),
      Stats.le s (outStats (processEntry e r s))) ∧
    (∀ (es : List Entry) (r : Bool) (s : Stats),
      Stats.le s (outStats (processEntries es r s))) :=
  ⟨⟨rfl, rfl, rfl, rfl, rfl, rfl⟩, clean_temp_files_mono, processEntry_mono,
   processEntries_mono⟩

/-- Claim C2: `is_temp_file` returns true exactly when the name is one of
the four configured junk filenames or matches one of the three configured
shell-glob patterns (case-sensitively); all other names are not
candidates.  The listed examples behave as the spec states. -/
theorem c2_classification (name : String) :
    (is_temp_file name = true ↔
      (name ∈ TEMP_FILES ∨ ∃ p ∈ FILES_PATTERNS, fnmatch name p = true)) ∧
    TEMP_FILES = [".DS_Store", "Thumbs.db", "ehthumbs.db", "Desktop.ini"] ∧
    FILES_PATTERNS = ["._*", "*~", ".*.sw?"] ∧
    is_temp_file ".DS_Store" = true ∧ is_temp_file "Thumbs.db" = true ∧
    is_temp_file "ehthumbs.db" = true ∧ is_temp_file "Desktop.ini" = true ∧
    is_temp_file "report.txt~" = true ∧ is_temp_file "._meta" = true ∧
    is_temp_file ".notes.swp" = true ∧ is_temp_file "notes.txt" = false ∧
    is_temp_file ".ds_store" = false := by
  refine ⟨?_, rfl, rfl, by decide, by decide, by decide, by decide, by decide,
    by decide, by decide, by decide, by decide⟩
  constructor
  · intro h
    simp only [is_temp_file] at h
    split at h
    · rename_i h1
      exact Or.inl (by simpa using h1)
    · split at h
      · rename_i h2
        exact Or.inr (by simpa [List.any_eq_true] using h2)
      · exact absurd h (by simp)
  · intro h
    rcases h with h1 | ⟨p, hp, hm⟩
    · simp [is_temp_file, h1]
    · have h2 : FILES_PATTERNS.any (fun pattern => fnmatch name pattern) = true := by
        simp only [List.any_eq_true]
        exact ⟨p, hp, hm⟩
      simp only [is_temp_file, h2]
      split
      · rfl
      · rfl

theorem c2_witness :
    (is_temp_file "notes.txt" = true ↔
      ("notes.txt" ∈ TEMP_FILES ∨ ∃ p ∈ FILES_PATTERNS, fnmatch "notes.txt" p = true)) ∧
    TEMP_FILES = [".DS_Store", "Thumbs.db", "ehthumbs.db", "Desktop.ini"] ∧
    FILES_PATTERNS = ["._*", "*~", ".*.sw?"] ∧
    is_temp_file ".DS_Store" = true ∧ is_temp_file "Thumbs.db" = true ∧
    is_temp_file "ehthumbs.db" = true ∧ is_temp_file "Desktop.ini" = true ∧
    is_temp_file "report.txt~" = true ∧ is_temp_file "._meta" = true ∧
    is_temp_file ".notes.swp" = true ∧ is_temp_file "notes.txt" = false ∧
    is_temp_file ".ds_store" = false :=
  c2_classification "notes.txt"

/-- Claim C3: in a recursive walk whose root listing is
`pre ++ [inaccessible subdir] ++ post`, the inaccessible subdirectory
contributes exactly +1 examined directories and +1 inaccessible
directories, is returned with its subtree untouched (never listed or
descended into, so its contents reach no counter and no deletion), and the
siblings before and after it are still processed to completion — the walk
does not abort. -/
theorem c3_inaccessible_subdir_skipped_siblings_complete (rn b : String)
    (pre post bcs : List Entry) (s : Stats) (hb : b ∉ DIRS_TO_IGNORE) :
    ∃ s1 pre2 s2 post2,
      processEntries pre true { s with examined_dirs := s.examined_dirs + 1 } =
        .ok (s1, pre2) ∧
      processEntries post true
          { s1 with examined_dirs := s1.examined_dirs + 1,
                    inaccessible_dirs := s1.inaccessible_dirs + 1 } = .ok (s2, post2) ∧
      clean_temp_files (some (.dir rn true (pre ++ Entry.dir b false bcs :: post))) true s =
        .ok (s2, .dir rn true (pre2 ++ Entry.dir b false bcs :: post2)) := by
  obtain ⟨s1, pre2, hpre, -⟩ :=
    processEntries_ok_mono pre true { s with examined_dirs := s.examined_dirs + 1 }
  obtain ⟨s2, post2, hpost, -⟩ :=
    processEntries_ok_mono post true
      { s1 with examined_dirs := s1.examined_dirs + 1,
                inaccessible_dirs := s1.inaccessible_dirs + 1 }
  refine ⟨s1, pre2, s2, post2, hpre, hpost, ?_⟩
  have hbad : processEntry (Entry.dir b false bcs) true s1 =
      .ok ({ s1 with examined_dirs := s1.examined_dirs + 1,
                     inaccessible_dirs := s1.inaccessible_dirs + 1 },
           some (Entry.dir b false bcs)) := by
    simp [processEntry, hb]
  have hcons : processEntries (Entry.dir b false bcs :: post) true s1 =
      .ok (s2, Entry.dir b false bcs :: post2) := by
    simp only [processEntries, hbad, hpost]
  have hlist : processEntries (pre ++ Entry.dir b false bcs :: post) true
      { s with examined_dirs := s.examined_dirs + 1 } =
      .ok (s2, pre2 ++ Entry.dir b false bcs :: post2) := by
    rw [processEntries_append]
    simp only [hpre, hcons]
  simp [clean_temp_files, hlist]

theorem c3_witness :
    ("locked" ∉ DIRS_TO_IGNORE) ∧
    (∃ s1 pre2 s2 post2,
      processEntries [Entry.file "Thumbs.db" true true] true
          { initStats with examined_dirs := initStats.examined_dirs + 1 } =
        .ok (s1, pre2) ∧
      processEntries [Entry.dir "sub" true [Entry.file "draft~" true true]] true
          { s1 with examined_dirs := s1.examined_dirs + 1,
                    inaccessible_dirs := s1.inaccessible_dirs + 1 } = .ok (s2, post2) ∧
      clean_temp_files (some (.dir "root" true
          ([Entry.file "Thumbs.db" true true] ++
            Entry.dir "locked" false [Entry.file ".DS_Store" true true] ::
              [Entry.dir "sub" true [Entry.file "draft~" true true]]))) true initStats =
        .ok (s2, .dir "root" true
          (pre2 ++ Entry.dir "locked" false [Entry.file ".DS_Store" true true] :: post2))) :=
  ⟨by decide,
   c3_inaccessible_subdir_skipped_siblings_complete "root" "locked"
     [Entry.file "Thumbs.db" true true]
     [Entry.dir "sub" true [Entry.file "draft~" true true]]
     [Entry.file ".DS_Store" true true] initStats (by decide)⟩

/-- Claim C10: classification and deletion apply only to non-directory
entries.  A directory entry — even one named exactly like a junk file —
is skipped untouched in non-recursive mode, and in recursive mode is
treated exactly like any other non-ignored subdirectory: the result
(statistics and surviving children) does not depend on its name, it always
survives as a directory, and an empty junk-named directory moves only the
examined-directories counter, never the file counters. -/
theorem c10_junk_named_directory_never_treated_as_file (n : String) (acc : Bool)
    (cs : List Entry) (s : Stats) (hjunk : is_temp_file n = true)
    (hn : n ∉ DIRS_TO_IGNORE) :
    processEntry (.dir n acc cs) false s = .ok (s, some (.dir n acc cs)) ∧
    (∃ s2 cs2, ∀ m : String, m ∉ DIRS_TO_IGNORE →
        processEntry (.dir m acc cs) true s = .ok (s2, some (.dir m acc cs2))) ∧
    processEntry (.dir n true []) true s =
      .ok ({ s with examined_dirs := s.examined_dirs + 1 }, some (.dir n true [])) := by
  refine ⟨rfl, ?_, by simp [processEntry, hn, processEntries]⟩
  cases acc with
  | false =>
    exact ⟨{ s with examined_dirs := s.examined_dirs + 1,
                    inaccessible_dirs := s.inaccessible_dirs + 1 }, cs,
      fun m hm => by simp [processEntry, hm]⟩
  | true =>
    obtain ⟨s2, out, heq, -⟩ :=
      processEntries_ok_mono cs true { s with examined_dirs := s.examined_dirs + 1 }
    exact ⟨s2, out, fun m hm => by simp [processEntry, hm, heq]⟩

theorem c10_witness :
    is_temp_file "Thumbs.db" = true ∧ ("Thumbs.db" ∉ DIRS_TO_IGNORE) ∧
    (processEntry (.dir "Thumbs.db" true [.file "a.txt" true true]) false initStats =
      .ok (initStats, some (.dir "Thumbs.db" true [.file "a.txt" true true])) ∧
    (∃ s2 cs2, ∀ m : String, m ∉ DIRS_TO_IGNORE →
        processEntry (.dir m true [.file "a.txt" true true]) true initStats =
          .ok (s2, some (.dir m true cs2))) ∧
    processEntry (.dir "Thumbs.db" true []) true initStats =
      .ok ({ initStats with examined_dirs := initStats.examined_dirs + 1 },
           some (.dir "Thumbs.db" true []))) :=
  ⟨by decide, by decide,
   c10_junk_named_directory_never_treated_as_file "Thumbs.db" true
     [.file "a.txt" true true] initStats (by decide) (by decide)⟩
